import Mathlib

/-!
Verification of the v2ex-digest aggregation core.

Shallow embedding conventions:
* Timestamps are integer milliseconds since the epoch (`ℤ`), matching the
  values produced by `Date.now()` / `Date.getTime()`.
* The scorer (`src/scorer.ts`) performs real-number arithmetic including a
  non-integer power, so its scores are modelled in `ℝ` (JavaScript numbers
  are modelled as exact reals; `NaN` has no counterpart in `ℝ`, and the
  source's `isNaN` guard is therefore vacuous in the model).
* The in-memory store (`src/mem-store.ts`) only compares, maximises and
  sorts the scores it is handed, so its score slots are modelled as exact
  rationals (`ℚ`), keeping every store operation computable.
* JavaScript `Map`s are modelled as insertion-ordered association lists
  with `set` updating an existing key in place, and `Set`s as
  insertion-ordered lists without duplicates.
-/

namespace V2exDigest

/-- `NewsItem` from `src/types.ts`: the normalized item record.
`createdAt` is the epoch-millisecond value of the `Date`. -/
structure NewsItem where
  id : String
  title : String
  url : String
  content : String
  nodeName : String
  nodeTitle : String
  author : String
  replies : ℤ
  createdAt : ℤ
deriving DecidableEq, Repr

/-! ## Scorer (`src/scorer.ts`) -/

/-- `hoursSincePost` of `computeScore`:
`(Date.now() - item.createdAt.getTime()) / (1000 * 60 * 60)`. -/
noncomputable def hoursSincePost (now createdAt : ℤ) : ℝ :=
  ((now : ℝ) - (createdAt : ℝ)) / (1000 * 60 * 60)

/-- `hours` of `computeScore`: `Math.max(hoursSincePost, 0)`. -/
noncomputable def hoursClamped (now createdAt : ℤ) : ℝ :=
  max (hoursSincePost now createdAt) 0

/-- The raw `score` expression of `computeScore`:
`(item.replies - 1) / Math.pow(hours + 2, 1.8)` (real power). -/
noncomputable def rawScore (now : ℤ) (item : NewsItem) : ℝ :=
  ((item.replies : ℝ) - 1) / (hoursClamped now item.createdAt + 2) ^ (1.8 : ℝ)

/-- `computeScore` from `src/scorer.ts`.  The source returns `0` when
`item.replies <= 0`, and otherwise clamps `isNaN(score) || score < 0` to
`0`; in the real-number model the `isNaN` disjunct is vacuous. -/
noncomputable def computeScore (now : ℤ) (item : NewsItem) : ℝ :=
  if item.replies ≤ 0 then 0
  else if rawScore now item < 0 then 0 else rawScore now item

theorem hoursClamped_nonneg (now createdAt : ℤ) : 0 ≤ hoursClamped now createdAt :=
  le_max_right _ _

theorem rawScore_denom_pos (now : ℤ) (item : NewsItem) :
    0 < (hoursClamped now item.createdAt + 2) ^ (1.8 : ℝ) := by
  apply Real.rpow_pos_of_pos
  have h := hoursClamped_nonneg now item.createdAt
  linarith

theorem rawScore_nonneg_of_pos_replies (now : ℤ) (item : NewsItem)
    (h : 0 < item.replies) : 0 ≤ rawScore now item := by
  unfold rawScore
  apply div_nonneg
  · have : (1 : ℝ) ≤ (item.replies : ℝ) := by exact_mod_cast h
    linarith
  · exact le_of_lt (rawScore_denom_pos now item)

theorem computeScore_nonneg (now : ℤ) (item : NewsItem) : 0 ≤ computeScore now item := by
  unfold computeScore
  split
  · exact le_refl 0
  · split
    · exact le_refl 0
    · exact le_of_not_lt (by assumption)

theorem computeScore_eq_rawScore (now : ℤ) (item : NewsItem)
    (h : 0 < item.replies) : computeScore now item = rawScore now item := by
  unfold computeScore
  rw [if_neg (not_le.mpr h), if_neg (not_lt.mpr (rawScore_nonneg_of_pos_replies now item h))]

/-- C3: `computeScore` returns exactly 0 when `replies ≤ 0`; otherwise it
returns `(replies − 1) / (hoursSincePost + 2)^1.8` where `hoursSincePost`
is the elapsed time in hours clamped below at 0 (`hoursClamped`); and the
result is never negative, for every input including a `createdAt` in the
future.  (In the real-number model there is no `NaN` and no infinity, so
the source's `isNaN`/finiteness guard is vacuously satisfied; for positive
replies the computed value is provably nonnegative, so the negative-value
guard never fires and the result equals the formula exactly.) -/
theorem C3_computeScore_spec (now : ℤ) (item : NewsItem) :
    (item.replies ≤ 0 → computeScore now item = 0) ∧
    (0 < item.replies →
      computeScore now item =
        ((item.replies : ℝ) - 1) /
          (hoursClamped now item.createdAt + 2) ^ (1.8 : ℝ)) ∧
    0 ≤ computeScore now item := by
  refine ⟨fun h => ?_, fun h => ?_, computeScore_nonneg now item⟩
  · unfold computeScore
    rw [if_pos h]
  · rw [computeScore_eq_rawScore now item h]
    rfl

/-- A zero-reply item, as in the spec's example `replies=0 → score = 0`. -/
def itemW3a : NewsItem :=
  { id := "a", title := "t", url := "u", content := "c", nodeName := "tech"
    nodeTitle := "T", author := "x", replies := 0, createdAt := 0 }

/-- A ten-reply item posted one hour before the reference time. -/
def itemW3b : NewsItem :=
  { id := "b", title := "t", url := "u", content := "c", nodeName := "tech"
    nodeTitle := "T", author := "x", replies := 10, createdAt := -3600000 }

/-- Witness for C3 at concrete inputs. -/
theorem C3_computeScore_spec_witness :
    computeScore 0 itemW3a = 0 ∧
    computeScore 0 itemW3b =
      ((itemW3b.replies : ℝ) - 1) /
        (hoursClamped 0 itemW3b.createdAt + 2) ^ (1.8 : ℝ) ∧
    0 ≤ computeScore 0 itemW3b :=
  ⟨(C3_computeScore_spec 0 itemW3a).1 (by decide),
   (C3_computeScore_spec 0 itemW3b).2.1 (by decide),
   (C3_computeScore_spec 0 itemW3b).2.2⟩

/-- An item with 2 replies created 2 hours after the reference time
(elapsed time −2h). -/
def itemT1 : NewsItem :=
  { id := "e1", title := "t", url := "u", content := "c", nodeName := "tech"
    nodeTitle := "T", author := "x", replies := 2, createdAt := 7200000 }

/-- An item with 2 replies created 1 hour after the reference time
(elapsed time −1h). -/
def itemT2 : NewsItem :=
  { id := "e2", title := "t", url := "u", content := "c", nodeName := "tech"
    nodeTitle := "T", author := "x", replies := 2, createdAt := 3600000 }

theorem hoursClamped_eq_zero_of_le (now createdAt : ℤ) (h : now ≤ createdAt) :
    hoursClamped now createdAt = 0 := by
  unfold hoursClamped hoursSincePost
  rw [max_eq_right]
  apply div_nonpos_of_nonpos_of_nonneg
  · simp only [sub_nonpos]
    exact_mod_cast h
  · norm_num

/-- Counterexample to C9 as stated: with `replies = 2` fixed, at elapsed
times t1 = −2h < t2 = −1h (a `createdAt` in the future), the two scores are
equal — the clamp to zero hours makes the score constant for non-positive
elapsed time — so the score at t2 is not strictly less than at t1. -/
theorem C9_counterexample :
    (1 : ℤ) < itemT1.replies ∧
    itemT2.replies = itemT1.replies ∧
    (0 : ℤ) - itemT1.createdAt < 0 - itemT2.createdAt ∧
    ¬ computeScore 0 itemT2 < computeScore 0 itemT1 := by
  refine ⟨by decide, by decide, by decide, ?_⟩
  have h1 : hoursClamped 0 itemT1.createdAt = 0 :=
    hoursClamped_eq_zero_of_le 0 itemT1.createdAt (by decide)
  have h2 : hoursClamped 0 itemT2.createdAt = 0 :=
    hoursClamped_eq_zero_of_le 0 itemT2.createdAt (by decide)
  have he : computeScore 0 itemT2 = computeScore 0 itemT1 := by
    unfold computeScore rawScore
    rw [h1, h2]
    rfl
  rw [he]
  exact lt_irrefl _

/-- C9 (amended): for fixed `replies > 1`, `computeScore` is strictly
decreasing in the elapsed time over *nonnegative* elapsed times: for
elapsed times 0 ≤ t1 < t2 the score at t2 is strictly below the score at
t1.  (For negative elapsed times the clamp to zero hours makes the score
constant, refuting the unrestricted claim.) -/
theorem C9_decay_amended (now : ℤ) (i1 i2 : NewsItem)
    (hrep : i2.replies = i1.replies) (hgt : 1 < i1.replies)
    (ht1 : 0 ≤ now - i1.createdAt)
    (hlt : now - i1.createdAt < now - i2.createdAt) :
    computeScore now i2 < computeScore now i1 := by
  have hpos1 : 0 < i1.replies := lt_trans one_pos hgt
  have hpos2 : 0 < i2.replies := by rw [hrep]; exact hpos1
  rw [computeScore_eq_rawScore now i1 hpos1, computeScore_eq_rawScore now i2 hpos2]
  unfold rawScore
  rw [hrep]
  have hnum : (0 : ℝ) < (i1.replies : ℝ) - 1 := by
    have : (1 : ℝ) < (i1.replies : ℝ) := by exact_mod_cast hgt
    linarith
  have hhc : hoursClamped now i1.createdAt < hoursClamped now i2.createdAt := by
    unfold hoursClamped hoursSincePost
    have hc : (0 : ℝ) < 1000 * 60 * 60 := by norm_num
    have h1R : (0 : ℝ) ≤ (now : ℝ) - (i1.createdAt : ℝ) := by
      have : ((0 : ℤ) : ℝ) ≤ ((now - i1.createdAt : ℤ) : ℝ) := by exact_mod_cast ht1
      push_cast at this
      linarith
    have hltR : (now : ℝ) - (i1.createdAt : ℝ) < (now : ℝ) - (i2.createdAt : ℝ) := by
      have : ((now - i1.createdAt : ℤ) : ℝ) < ((now - i2.createdAt : ℤ) : ℝ) := by
        exact_mod_cast hlt
      push_cast at this
      linarith
    have hd1 : (0 : ℝ) ≤ ((now : ℝ) - (i1.createdAt : ℝ)) / (1000 * 60 * 60) :=
      div_nonneg h1R (le_of_lt hc)
    have hd : ((now : ℝ) - (i1.createdAt : ℝ)) / (1000 * 60 * 60) <
        ((now : ℝ) - (i2.createdAt : ℝ)) / (1000 * 60 * 60) :=
      (div_lt_div_iff_of_pos_right hc).mpr hltR
    rw [max_eq_left hd1, max_eq_left (le_trans hd1 (le_of_lt hd))]
    exact hd
  have hbase1 : (0 : ℝ) < hoursClamped now i1.createdAt + 2 := by
    have := hoursClamped_nonneg now i1.createdAt
    linarith
  have hpow : (hoursClamped now i1.createdAt + 2) ^ (1.8 : ℝ) <
      (hoursClamped now i2.createdAt + 2) ^ (1.8 : ℝ) := by
    apply Real.rpow_lt_rpow (le_of_lt hbase1) (by linarith) (by norm_num)
  exact div_lt_div_of_pos_left hnum (Real.rpow_pos_of_pos hbase1 _) hpow

/-- An item with 2 replies created at the reference time (elapsed 0). -/
def itemW9a : NewsItem :=
  { id := "w1", title := "t", url := "u", content := "c", nodeName := "tech"
    nodeTitle := "T", author := "x", replies := 2, createdAt := 0 }

/-- An item with 2 replies created one hour earlier (elapsed 1h). -/
def itemW9b : NewsItem :=
  { id := "w2", title := "t", url := "u", content := "c", nodeName := "tech"
    nodeTitle := "T", author := "x", replies := 2, createdAt := -3600000 }

/-- Witness for the amended C9 at concrete inputs. -/
theorem C9_decay_amended_witness :
    computeScore 0 itemW9b < computeScore 0 itemW9a :=
  C9_decay_amended 0 itemW9a itemW9b (by decide) (by decide) (by decide) (by decide)

/-! ## JavaScript `Map`/`Set` model

A JavaScript `Map` is an insertion-ordered association list whose `set`
updates an existing key in place (keeping its position) and otherwise
appends; `get` returns the value at the key; `delete` removes the entry.
A `Set` of strings is an insertion-ordered duplicate-free list. -/

/-- `Map.prototype.get`. -/
def mapGet {α : Type} : List (String × α) → String → Option α
  | [], _ => none
  | (k', v) :: rest, k => if k' = k then some v else mapGet rest k

/-- `Map.prototype.set`. -/
def mapSet {α : Type} : List (String × α) → String → α → List (String × α)
  | [], k, v => [(k, v)]
  | (k', v') :: rest, k, v =>
      if k' = k then (k, v) :: rest else (k', v') :: mapSet rest k v

/-- `Map.prototype.delete`. -/
def mapDelete {α : Type} (l : List (String × α)) (k : String) : List (String × α) :=
  l.filter (fun e => !(e.1 = k : Bool))

/-- `Set.prototype.add`. -/
def setAdd (l : List String) (k : String) : List String :=
  if l.contains k then l else l ++ [k]

theorem mapGet_mapSet_self {α : Type} (l : List (String × α)) (k : String) (v : α) :
    mapGet (mapSet l k v) k = some v := by
  induction l with
  | nil => simp [mapSet, mapGet]
  | cons hd tl ih =>
      by_cases h : hd.1 = k
      · simp [mapSet, mapGet, h]
      · simp [mapSet, mapGet, h, ih]

theorem mapGet_mapSet_ne {α : Type} (l : List (String × α)) (k k' : String) (v : α)
    (h : k ≠ k') : mapGet (mapSet l k v) k' = mapGet l k' := by
  induction l with
  | nil => simp [mapSet, mapGet, h]
  | cons hd tl ih =>
      by_cases hh : hd.1 = k
      · simp [mapSet, mapGet, hh, h]
      · by_cases hk : hd.1 = k'
        · simp [mapSet, mapGet, hh, hk, Ne.symm h]
        · simp [mapSet, mapGet, hh, hk, ih]

/-! ## The in-memory store (`src/mem-store.ts`) -/

/-- A `(item, score)` pair as returned by `MemStore.topItems`
(`ScoredItem` of `src/types.ts`, with the store's scores as exact
rationals). -/
structure ScoredItem where
  item : NewsItem
  score : ℚ
deriving DecidableEq, Repr

/-- The four in-memory sub-structures of `MemStore` (`items`,
`periodScores`, `published`, `skipped`).  The persistence path is
modelled separately. -/
structure MemStore where
  items : List (String × NewsItem)
  periodScores : List (String × List (String × ℚ))
  published : List String
  skipped : List (String × ℤ)
deriving DecidableEq, Repr

/-- The store holding no state (a fresh `MemStore` with no snapshot). -/
def emptyStore : MemStore :=
  { items := [], periodScores := [], published := [], skipped := [] }

/-- `MemStore.addItem(period, item, score)`: always replaces the stored
item; creates the period's score table if absent; and only writes the
score when it strictly exceeds the existing one (absent read as 0) —
`ZADD`-style ratchet. -/
def addItem (s : MemStore) (period : String) (item : NewsItem) (score : ℚ) : MemStore :=
  let items := mapSet s.items item.id item
  let scores := (mapGet s.periodScores period).getD []
  let scores' := if (mapGet scores item.id).getD 0 < score
    then mapSet scores item.id score else scores
  { s with items := items, periodScores := mapSet s.periodScores period scores' }

/-- The stored score slot for `(period, id)`: the period's score table
(absent tables read as empty) queried at `id`. -/
def lookupScore (s : MemStore) (period id : String) : Option ℚ :=
  mapGet ((mapGet s.periodScores period).getD []) id

/-- The stored item record for `id`. -/
def lookupItem (s : MemStore) (id : String) : Option NewsItem :=
  mapGet s.items id

/-- A sequence of `addItem` calls against one period, applied in order. -/
def runCalls (s : MemStore) (period : String) (calls : List (NewsItem × ℚ)) : MemStore :=
  calls.foldl (fun st c => addItem st period c.1 c.2) s

/-- The running maximum of the scores of a call sequence, started at 0
(the value an absent slot reads as). -/
def maxScore (calls : List (NewsItem × ℚ)) : ℚ :=
  calls.foldl (fun m c => max m c.2) 0

theorem lookupScore_addItem_self (s : MemStore) (period : String) (item : NewsItem)
    (score : ℚ) :
    lookupScore (addItem s period item score) period item.id =
      if (lookupScore s period item.id).getD 0 < score then some score
      else lookupScore s period item.id := by
  unfold addItem lookupScore
  simp only [mapGet_mapSet_self, Option.getD_some]
  by_cases h : (mapGet ((mapGet s.periodScores period).getD []) item.id).getD 0 < score
  · rw [if_pos h, if_pos h, mapGet_mapSet_self]
  · rw [if_neg h, if_neg h]

theorem lookupItem_addItem_self (s : MemStore) (period : String) (item : NewsItem)
    (score : ℚ) :
    lookupItem (addItem s period item score) item.id = some item := by
  unfold addItem lookupItem
  simp only [mapGet_mapSet_self]

theorem lookupScore_runCalls (period id : String) (calls : List (NewsItem × ℚ)) :
    ∀ (s : MemStore) (m : ℚ), 0 ≤ m →
    (∀ c ∈ calls, c.1.id = id) →
    lookupScore s period id = (if 0 < m then some m else none) →
    lookupScore (runCalls s period calls) period id =
      (if 0 < List.foldl (fun acc c => max acc c.2) m calls
       then some (List.foldl (fun acc c => max acc c.2) m calls) else none) := by
  induction calls with
  | nil => intro s m _ _ hs; exact hs
  | cons c rest ih =>
      intro s m hm hid hs
      have hcid : c.1.id = id := hid c (List.mem_cons_self _ _)
      have hex : (lookupScore s period id).getD 0 = m := by
        rw [hs]
        by_cases h0 : 0 < m
        · rw [if_pos h0, Option.getD_some]
        · rw [if_neg h0, Option.getD_none]
          exact (le_antisymm (not_lt.mp h0) hm).symm
      have hstep : lookupScore (addItem s period c.1 c.2) period id =
          (if 0 < max m c.2 then some (max m c.2) else none) := by
        rw [← hcid] at hex hs ⊢
        rw [lookupScore_addItem_self s period c.1 c.2, hex]
        by_cases hlt : m < c.2
        · have hpos : 0 < max m c.2 := lt_of_le_of_lt hm (lt_of_lt_of_le hlt (le_max_right _ _))
          rw [if_pos hlt, if_pos hpos, max_eq_right (le_of_lt hlt)]
        · rw [if_neg hlt, hs, max_eq_left (not_lt.mp hlt)]
      have : runCalls s period (c :: rest) = runCalls (addItem s period c.1 c.2) period rest := rfl
      rw [this]
      exact ih (addItem s period c.1 c.2) (max m c.2) (le_trans hm (le_max_left _ _))
        (fun d hd => hid d (List.mem_cons_of_mem _ hd)) hstep

theorem lookupItem_runCalls (period id : String) (calls : List (NewsItem × ℚ))
    (hne : calls ≠ []) :
    ∀ s : MemStore, (∀ c ∈ calls, c.1.id = id) →
    lookupItem (runCalls s period calls) id = some (calls.getLast hne).1 := by
  induction calls with
  | nil => exact absurd rfl hne
  | cons c rest ih =>
      intro s hid
      have hcid : c.1.id = id := hid c (List.mem_cons_self _ _)
      by_cases hr : rest = []
      · subst hr
        have : runCalls s period [c] = addItem s period c.1 c.2 := rfl
        rw [this, List.getLast_singleton, ← hcid]
        exact lookupItem_addItem_self s period c.1 c.2
      · have hstep : runCalls s period (c :: rest) =
            runCalls (addItem s period c.1 c.2) period rest := rfl
        rw [hstep, List.getLast_cons hr]
        exact ih hr (addItem s period c.1 c.2)
          (fun d hd => hid d (List.mem_cons_of_mem _ hd))

/-- The period key used in concrete store examples. -/
def pP : String := "p"

/-- The item identifier used in concrete store examples. -/
def idA : String := "a"

/-- A concrete item carrying identifier `idA`. -/
def itemC1 : NewsItem :=
  { id := idA, title := "t1", url := "u", content := "c", nodeName := "tech"
    nodeTitle := "T", author := "x", replies := 3, createdAt := 0 }

/-- The same identifier with refreshed content (a re-fetch). -/
def itemC1b : NewsItem :=
  { id := idA, title := "t2", url := "u", content := "c2", nodeName := "tech"
    nodeTitle := "T", author := "x", replies := 4, createdAt := 0 }

/-- Counterexample to C1 as stated: a single upsert with score −1 into a
fresh store stores nothing at all for the pair (the ratchet compares
against 0 for an absent slot and only writes strictly greater scores), so
the stored score does not equal the maximum score passed (−1). -/
theorem C1_counterexample :
    lookupScore (runCalls emptyStore pP [(itemC1, -1)]) pP idA ≠ some (-1) ∧
    lookupScore (runCalls emptyStore pP [(itemC1, -1)]) pP idA = none := by
  decide

/-- C1 (amended): starting from a store with no score slot for
`(period, id)`, after any sequence of upserts for that pair the stored
score equals the maximum score passed whenever that maximum is positive;
calls with non-positive scores never create or change the slot (an absent
slot reads as 0), so if no call passed a positive score the pair has no
stored score. The stored item record is last-write-wins, independent of
score. -/
theorem C1_ratchet_amended (period id : String) (calls : List (NewsItem × ℚ))
    (s0 : MemStore) (hfresh : lookupScore s0 period id = none)
    (hid : ∀ c ∈ calls, c.1.id = id) :
    (lookupScore (runCalls s0 period calls) period id =
      if 0 < maxScore calls then some (maxScore calls) else none) ∧
    (∀ hne : calls ≠ [],
      lookupItem (runCalls s0 period calls) id = some (calls.getLast hne).1) := by
  constructor
  · have h := lookupScore_runCalls period id calls s0 0 le_rfl hid (by simp [hfresh])
    simpa [maxScore] using h
  · intro hne
    exact lookupItem_runCalls period id calls hne s0 hid

/-- Witness for the amended C1: upserting score 5 then score 3 for the
same `(period, id)` leaves the stored score at 5 and the stored item is
the one of the second call. -/
theorem C1_ratchet_amended_witness :
    lookupScore emptyStore pP idA = none ∧
    lookupScore (runCalls emptyStore pP [(itemC1, 5), (itemC1b, 3)]) pP idA = some 5 ∧
    lookupItem (runCalls emptyStore pP [(itemC1, 5), (itemC1b, 3)]) idA = some itemC1b := by
  have h := C1_ratchet_amended pP idA [(itemC1, 5), (itemC1b, 3)] emptyStore
    (by decide) (by decide)
  refine ⟨by decide, ?_, ?_⟩
  · rw [h.1]; decide
  · have h2 := h.2 (by decide)
    exact h2

/-! ## Publish markers, skip markers, gc, topItems -/

/-- `MemStore.isPublished(channel, period)`. -/
def isPublished (s : MemStore) (channel period : String) : Bool :=
  s.published.contains (channel ++ ":" ++ period)

/-- `MemStore.markPublished(channel, period)`. -/
def markPublished (s : MemStore) (channel period : String) : MemStore :=
  { s with published := setAdd s.published (channel ++ ":" ++ period) }

/-- `MemStore.isSkipped(channel, id)`: reads the clock (`now`), lazily
evicting an entry whose expiry has strictly passed.  Returns the boolean
together with the (possibly mutated) store. -/
def isSkipped (s : MemStore) (channel id : String) (now : ℤ) : Bool × MemStore :=
  match mapGet s.skipped (channel ++ ":" ++ id) with
  | none => (false, s)
  | some expiry =>
      if expiry < now then
        (false, { s with skipped := mapDelete s.skipped (channel ++ ":" ++ id) })
      else (true, s)

/-- `MemStore.markSkipped(channel, id, ttlMs)`: expiry = `Date.now() + ttlMs`. -/
def markSkipped (s : MemStore) (channel id : String) (ttlMs now : ℤ) : MemStore :=
  { s with skipped := mapSet s.skipped (channel ++ ":" ++ id) (now + ttlMs) }

/-- `MemStore.gc()`: drops skip markers whose expiry has strictly passed
and period score tables whose key is lexicographically below the cutoff
string; `cutoffStr` stands for the zero-padded ISO date of `now − 7 days`
computed by the source from the clock. -/
def gc (s : MemStore) (now : ℤ) (cutoffStr : String) : MemStore :=
  { s with
    skipped := s.skipped.filter (fun e => !decide (e.2 < now))
    periodScores := s.periodScores.filter (fun e => !decide (e.1 < cutoffStr)) }

/-- `MemStore.topItems(period, n)`: sort the period's entries by score
descending (stable), truncate to `n`, then join with the item table,
silently dropping ids with no stored item. -/
def topItems (s : MemStore) (period : String) (n : ℕ) : List ScoredItem :=
  match mapGet s.periodScores period with
  | none => []
  | some scores =>
      let entries := (scores.mergeSort (fun a b => decide (b.2 ≤ a.2))).take n
      entries.foldl (fun acc e =>
        match mapGet s.items e.1 with
        | some item => acc ++ [{ item := item, score := e.2 }]
        | none => acc) []

/-! ## Builder (`src/builder.ts`) -/

/-- The `generate` configuration fields the Builder tick reads. -/
structure GenCfg where
  topN : ℕ
  excludeNodes : List String
  skipHours : ℤ
deriving DecidableEq, Repr

/-- The constant channel of the Builder. -/
def channelName : String := "v2ex-digest"

/-- The skip filter of `Builder.runOnce`: a JavaScript `Array.filter`
whose predicate is the side-effecting `store.isSkipped`, applied to every
candidate in order, threading the store. -/
def filterSkipped (channel : String) (now : ℤ) :
    List ScoredItem → MemStore → List ScoredItem × MemStore
  | [], s => ([], s)
  | c :: rest, s =>
      let p := isSkipped s channel c.item.id now
      let q := filterSkipped channel now rest p.2
      if p.1 then q else (c :: q.1, q.2)

/-- The candidate-selection phase of `Builder.runOnce`: over-fetch
`topN * 5`, drop excluded nodes (case-insensitively), drop skipped items
(with lazy eviction), drop non-positive replies / non-positive scores.
Returns the surviving candidates and the store after the reads. -/
def selectCandidates (cfg : GenCfg) (now : ℤ) (period : String) (s : MemStore) :
    List ScoredItem × MemStore :=
  let candidates := topItems s period (cfg.topN * 5)
  let excludeSet := cfg.excludeNodes.map String.toLower
  let candidates := candidates.filter (fun c => !excludeSet.contains c.item.nodeName.toLower)
  let r := filterSkipped channelName now candidates s
  (r.1.filter (fun c => decide (0 < c.item.replies) && decide (0 < c.score)), r.2)

/-- The outcome of one Builder tick: the resulting store, the digest
payload handed to summarization/rendering (`none` when nothing was
published), and whether `persist()` ran. -/
structure RunResult where
  store : MemStore
  output : Option (List ScoredItem)
  persisted : Bool
deriving DecidableEq, Repr

/-- `Builder.runOnce` for the given period: stop if already published;
select candidates; below 5 survivors do nothing further; otherwise take
the first `topN`, render (modelled by the payload), mark published, mark
each selected item skipped for `skipHours`, then `gc()` and `persist()`. -/
def runOnce (cfg : GenCfg) (now : ℤ) (cutoffStr : String) (period : String)
    (s : MemStore) : RunResult :=
  if isPublished s channelName period then ⟨s, none, false⟩
  else
    let r := selectCandidates cfg now period s
    if r.1.length < 5 then ⟨r.2, none, false⟩
    else
      let top := r.1.take cfg.topN
      let s1 := markPublished r.2 channelName period
      let skipMs := cfg.skipHours * 60 * 60 * 1000
      let s2 := top.foldl (fun st c => markSkipped st channelName c.item.id skipMs now) s1
      ⟨gc s2 now cutoffStr, some top, true⟩

theorem contains_setAdd_self (l : List String) (k : String) :
    (setAdd l k).contains k = true := by
  unfold setAdd
  by_cases h : l.contains k
  · rw [if_pos h]; exact h
  · rw [if_neg h]
    simp

theorem setAdd_idem (l : List String) (k : String) :
    setAdd (setAdd l k) k = setAdd l k := by
  show (if (setAdd l k).contains k = true then setAdd l k else setAdd l k ++ [k]) =
    setAdd l k
  rw [if_pos (contains_setAdd_self l k)]

/-- C2: marking published makes `isPublished` true; a second mark leaves
the publish set unchanged; and a Builder tick for an already-published
`(channel, period)` returns without a payload, without persisting, and
with the store untouched. -/
theorem C2_publish_once (s : MemStore) (channel period : String) (cfg : GenCfg)
    (now : ℤ) (cutoffStr : String) :
    isPublished (markPublished s channel period) channel period = true ∧
    markPublished (markPublished s channel period) channel period =
      markPublished s channel period ∧
    (isPublished s channelName period = true →
      runOnce cfg now cutoffStr period s = ⟨s, none, false⟩) := by
  refine ⟨?_, ?_, fun h => ?_⟩
  · unfold isPublished markPublished
    exact contains_setAdd_self _ _
  · unfold markPublished
    simp only [MemStore.mk.injEq]
    rw [setAdd_idem]
    exact ⟨trivial, trivial, rfl, trivial⟩
  · unfold runOnce
    rw [if_pos h]

/-- A reference date string (stands for the `now − 7 days` cutoff). -/
def dateCut : String := "2025-01-01"

/-- A concrete Builder configuration. -/
def cfgW : GenCfg := { topN := 5, excludeNodes := [], skipHours := 72 }

/-- Witness for C2 at concrete inputs. -/
theorem C2_publish_once_witness :
    isPublished (markPublished emptyStore channelName pP) channelName pP = true ∧
    runOnce cfgW 0 dateCut pP (markPublished emptyStore channelName pP) =
      ⟨markPublished emptyStore channelName pP, none, false⟩ := by
  refine ⟨(C2_publish_once emptyStore channelName pP cfgW 0 dateCut).1, ?_⟩
  exact (C2_publish_once (markPublished emptyStore channelName pP) channelName pP
    cfgW 0 dateCut).2.2 (by decide)

theorem mapGet_mapDelete_self {α : Type} (l : List (String × α)) (k : String) :
    mapGet (mapDelete l k) k = none := by
  induction l with
  | nil => rfl
  | cons hd tl ih =>
      by_cases h : hd.1 = k
      · simpa [mapDelete, h] using ih
      · simpa [mapDelete, mapGet, h] using ih

/-- The channel name used in concrete skip-marker examples. -/
def chC : String := "c"

/-- Counterexample to C5 as stated: (1) with ttl = 1000ms, at exactly
1000ms elapsed (at least ttl has elapsed) `isSkipped` still returns true —
the source evicts only when `Date.now()` is *strictly* greater than the
expiry; (2) with a negative ttl, `isSkipped` immediately after the mark
returns false, refuting the unrestricted "immediately true" part. -/
theorem C5_counterexample :
    (isSkipped (markSkipped emptyStore chC idA 1000 0) chC idA 1000).1 = true ∧
    (isSkipped (markSkipped emptyStore chC idA (-2000) 0) chC idA 0).1 = false := by
  decide

/-- C5 (amended): for every nonnegative ttl, immediately after
`markSkipped` the call `isSkipped` returns true; once *strictly more*
than ttl has elapsed, `isSkipped` returns false and physically removes
the entry from the skip map; for an id never marked, `isSkipped` returns
false. -/
theorem C5_skip_ttl_amended (s : MemStore) (channel id : String) (ttl now now' : ℤ)
    (httl : 0 ≤ ttl) :
    (isSkipped (markSkipped s channel id ttl now) channel id now).1 = true ∧
    (ttl < now' - now →
      (isSkipped (markSkipped s channel id ttl now) channel id now').1 = false ∧
      mapGet (isSkipped (markSkipped s channel id ttl now) channel id now').2.skipped
        (channel ++ ":" ++ id) = none) ∧
    (mapGet s.skipped (channel ++ ":" ++ id) = none →
      (isSkipped s channel id now).1 = false) := by
  have hget : mapGet (markSkipped s channel id ttl now).skipped (channel ++ ":" ++ id) =
      some (now + ttl) := by
    unfold markSkipped
    exact mapGet_mapSet_self _ _ _
  refine ⟨?_, fun helapsed => ?_, fun hnone => ?_⟩
  · unfold isSkipped
    rw [hget]
    simp only
    rw [if_neg (by omega)]
  · have hexp : now + ttl < now' := by omega
    constructor
    · unfold isSkipped
      rw [hget]
      simp only
      rw [if_pos hexp]
    · unfold isSkipped
      rw [hget]
      simp only
      rw [if_pos hexp]
      exact mapGet_mapDelete_self _ _
  · unfold isSkipped
    rw [hnone]

/-- Witness for the amended C5: mark with ttl 1000ms at time 0; skipped
immediately; at time 1001 no longer skipped and the entry is evicted; an
unmarked id is not skipped. -/
theorem C5_skip_ttl_amended_witness :
    (isSkipped (markSkipped emptyStore chC idA 1000 0) chC idA 0).1 = true ∧
    (isSkipped (markSkipped emptyStore chC idA 1000 0) chC idA 1001).1 = false ∧
    mapGet (isSkipped (markSkipped emptyStore chC idA 1000 0) chC idA 1001).2.skipped
      (chC ++ ":" ++ idA) = none ∧
    (isSkipped emptyStore chC idA 0).1 = false := by
  have h := C5_skip_ttl_amended emptyStore chC idA 1000 0 1001 (by decide)
  exact ⟨h.1, (h.2.1 (by decide)).1, (h.2.1 (by decide)).2, h.2.2 (by decide)⟩

/-- C8: after `gc`, a skip marker survives iff its expiry has not strictly
passed at gc time (`¬ expiry < now`), and a period score table survives
iff its key is not lexicographically below the cutoff date string (the
zero-padded ISO date of seven days before today); items and the publish
set are untouched. -/
theorem C8_gc_spec (s : MemStore) (now : ℤ) (cutoffStr : String) :
    (∀ (k : String) (e : ℤ),
      (k, e) ∈ (gc s now cutoffStr).skipped ↔ (k, e) ∈ s.skipped ∧ ¬ e < now) ∧
    (∀ (p : String) (tbl : List (String × ℚ)),
      (p, tbl) ∈ (gc s now cutoffStr).periodScores ↔
        (p, tbl) ∈ s.periodScores ∧ ¬ p < cutoffStr) ∧
    (gc s now cutoffStr).items = s.items ∧
    (gc s now cutoffStr).published = s.published := by
  refine ⟨fun k e => ?_, fun p tbl => ?_, rfl, rfl⟩
  · unfold gc
    simp [List.mem_filter]
  · unfold gc
    simp [List.mem_filter]

/-! ## Read effects of the skip filter (for the below-threshold tick) -/

/-- `s'` differs from `s` only by the lazy evictions a read pass may
perform: items, publish set and score tables are identical, the skip map
of `s'` is contained in that of `s`, and every dropped skip entry had an
expiry strictly before `now`. -/
def ReadShrink (now : ℤ) (s s' : MemStore) : Prop :=
  s'.items = s.items ∧ s'.published = s.published ∧
  s'.periodScores = s.periodScores ∧
  (∀ (k : String) (e : ℤ), (k, e) ∈ s'.skipped → (k, e) ∈ s.skipped) ∧
  (∀ (k : String) (e : ℤ), (k, e) ∈ s.skipped → (k, e) ∉ s'.skipped → e < now)

theorem readShrink_refl (now : ℤ) (s : MemStore) : ReadShrink now s s :=
  ⟨rfl, rfl, rfl, fun _ _ h => h, fun _ _ h h' => absurd h h'⟩

theorem readShrink_trans (now : ℤ) (s s' s'' : MemStore)
    (h1 : ReadShrink now s s') (h2 : ReadShrink now s' s'') : ReadShrink now s s'' := by
  obtain ⟨a1, b1, c1, d1, e1⟩ := h1
  obtain ⟨a2, b2, c2, d2, e2⟩ := h2
  refine ⟨a2.trans a1, b2.trans b1, c2.trans c1, fun k e h => d1 k e (d2 k e h), ?_⟩
  intro k e hm hn
  by_cases hmid : (k, e) ∈ s'.skipped
  · exact e2 k e hmid hn
  · exact e1 k e hm hmid

theorem mapGet_eq_of_mem_of_nodup {α : Type} (l : List (String × α)) (k : String) (v : α)
    (hnd : (l.map Prod.fst).Nodup) (hm : (k, v) ∈ l) : mapGet l k = some v := by
  induction l with
  | nil => cases hm
  | cons hd tl ih =>
      rcases List.mem_cons.mp hm with h | h
      · subst h
        simp [mapGet]
      · have hk : hd.1 ≠ k := by
          intro hk
          have : k ∈ tl.map Prod.fst := List.mem_map.mpr ⟨(k, v), h, rfl⟩
          rw [List.map_cons, List.nodup_cons] at hnd
          exact hnd.1 (hk ▸ this)
        rw [List.map_cons, List.nodup_cons] at hnd
        simpa [mapGet, hk] using ih hnd.2 h

theorem isSkipped_readShrink (s : MemStore) (channel id : String) (now : ℤ)
    (hnd : (s.skipped.map Prod.fst).Nodup) :
    ReadShrink now s (isSkipped s channel id now).2 ∧
    (((isSkipped s channel id now).2.skipped.map Prod.fst)).Nodup := by
  unfold isSkipped
  split
  · exact ⟨readShrink_refl now s, hnd⟩
  · rename_i expiry hget
    split
    · rename_i hexp
      refine ⟨⟨rfl, rfl, rfl, ?_, ?_⟩, ?_⟩
      · intro k e h
        exact (List.mem_filter.mp h).1
      · intro k e hm hn
        have hkey : k = channel ++ ":" ++ id := by
          by_contra hk
          exact hn (List.mem_filter.mpr ⟨hm, by simpa using hk⟩)
        subst hkey
        have := mapGet_eq_of_mem_of_nodup s.skipped _ e hnd hm
        rw [hget] at this
        injection this with h'
        exact h' ▸ hexp
      · exact List.Nodup.sublist (List.Sublist.map Prod.fst (List.filter_sublist _)) hnd
    · exact ⟨readShrink_refl now s, hnd⟩

theorem filterSkipped_readShrink (channel : String) (now : ℤ)
    (cands : List ScoredItem) :
    ∀ s : MemStore, (s.skipped.map Prod.fst).Nodup →
    ReadShrink now s (filterSkipped channel now cands s).2 ∧
    (((filterSkipped channel now cands s).2.skipped.map Prod.fst)).Nodup := by
  induction cands with
  | nil => intro s hnd; exact ⟨readShrink_refl now s, hnd⟩
  | cons c rest ih =>
      intro s hnd
      have h1 := isSkipped_readShrink s channel c.item.id now hnd
      have h2 := ih (isSkipped s channel c.item.id now).2 h1.2
      have hcomp := readShrink_trans now s _ _ h1.1 h2.1
      unfold filterSkipped
      by_cases hp : (isSkipped s channel c.item.id now).1
      · rw [if_pos hp]
        exact ⟨hcomp, h2.2⟩
      · rw [if_neg hp]
        exact ⟨hcomp, h2.2⟩

theorem selectCandidates_readShrink (cfg : GenCfg) (now : ℤ) (period : String)
    (s : MemStore) (hnd : (s.skipped.map Prod.fst).Nodup) :
    ReadShrink now s (selectCandidates cfg now period s).2 := by
  unfold selectCandidates
  exact (filterSkipped_readShrink channelName now _ s hnd).1

/-- C6: a Builder tick that is not yet published and in which fewer than
5 candidates survive the node-exclusion, skip and positive-reply/score
filters produces no payload, marks nothing published, marks nothing
skipped, runs no gc and no persist: the resulting store differs from the
input store only in skip entries lazily evicted by the reads themselves
(each such entry's expiry had strictly passed). -/
theorem C6_below_threshold (cfg : GenCfg) (now : ℤ) (cutoffStr period : String)
    (s : MemStore) (hnd : (s.skipped.map Prod.fst).Nodup)
    (hpub : isPublished s channelName period = false)
    (hlt : (selectCandidates cfg now period s).1.length < 5) :
    runOnce cfg now cutoffStr period s =
      ⟨(selectCandidates cfg now period s).2, none, false⟩ ∧
    (selectCandidates cfg now period s).2.items = s.items ∧
    (selectCandidates cfg now period s).2.published = s.published ∧
    (selectCandidates cfg now period s).2.periodScores = s.periodScores ∧
    (∀ (k : String) (e : ℤ),
      (k, e) ∈ (selectCandidates cfg now period s).2.skipped → (k, e) ∈ s.skipped) ∧
    (∀ (k : String) (e : ℤ),
      (k, e) ∈ s.skipped → (k, e) ∉ (selectCandidates cfg now period s).2.skipped →
        e < now) := by
  obtain ⟨a, b, c, d, e⟩ := selectCandidates_readShrink cfg now period s hnd
  refine ⟨?_, a, b, c, d, e⟩
  unfold runOnce
  rw [if_neg (by simp [hpub]), if_pos hlt]

/-- Witness for C6: on the empty store (0 candidates survive) the tick
does nothing. -/
theorem C6_below_threshold_witness :
    runOnce cfgW 0 dateCut pP emptyStore =
      ⟨(selectCandidates cfgW 0 pP emptyStore).2, none, false⟩ ∧
    (selectCandidates cfgW 0 pP emptyStore).2.items = emptyStore.items := by
  have h := C6_below_threshold cfgW 0 dateCut pP emptyStore (by decide) (by decide)
    (by decide)
  exact ⟨h.1, h.2.1⟩

/-! ## The one-shot ranking pipeline (`scoreAndRank` of `src/scorer.ts`) -/

/-- A scored item of the one-shot path, with the scorer's real-valued
score. -/
structure ScoredItemR where
  item : NewsItem
  score : ℝ

/-- The dedup/exclusion loop of `scoreAndRank`: walk the input keeping
the first occurrence of each id, dropping ids in `skipIds` and items
whose lowercased node name is in `excludeSet`; `seen` accumulates the
ids already kept (the JavaScript `Set`, used only for membership). -/
def dedupFilter (skipIds excludeSet : List String) :
    List NewsItem → List String → List NewsItem
  | [], _ => []
  | item :: rest, seen =>
      if seen.contains item.id || skipIds.contains item.id then
        dedupFilter skipIds excludeSet rest seen
      else if excludeSet.contains item.nodeName.toLower then
        dedupFilter skipIds excludeSet rest seen
      else item :: dedupFilter skipIds excludeSet rest (item.id :: seen)

/-- The `scored` intermediate of `scoreAndRank`: score every surviving
item and keep only strictly positive scores. -/
noncomputable def scoredPool (now : ℤ) (skipIds excludeNodes : List String)
    (items : List NewsItem) : List ScoredItemR :=
  ((dedupFilter skipIds (excludeNodes.map String.toLower) items []).map
      (fun item => { item := item, score := computeScore now item : ScoredItemR })).filter
    (fun x => decide (0 < x.score))

/-- `scoreAndRank(items, topN, skipIds, excludeNodes)`: dedup/filter,
score, drop non-positive scores, stable-sort descending by score, take
the first `topN`. -/
noncomputable def scoreAndRank (now : ℤ) (items : List NewsItem) (topN : ℕ)
    (skipIds excludeNodes : List String) : List ScoredItemR :=
  ((scoredPool now skipIds excludeNodes items).mergeSort
    (fun a b => decide (b.score ≤ a.score))).take topN

theorem dedupFilter_spec (skipIds excludeSet : List String) (items : List NewsItem) :
    ∀ seen : List String,
      ((dedupFilter skipIds excludeSet items seen).map (fun x => x.id)).Nodup ∧
      (∀ x ∈ dedupFilter skipIds excludeSet items seen,
        seen.contains x.id = false ∧ skipIds.contains x.id = false ∧
        excludeSet.contains x.nodeName.toLower = false) := by
  induction items with
  | nil => exact fun seen => ⟨List.nodup_nil, fun x hx => absurd hx (List.not_mem_nil x)⟩
  | cons item rest ih =>
      intro seen
      unfold dedupFilter
      by_cases h1 : (seen.contains item.id || skipIds.contains item.id) = true
      · rw [if_pos h1]; exact ih seen
      · rw [if_neg h1]
        have h1' : seen.contains item.id = false ∧ skipIds.contains item.id = false := by
          constructor <;> revert h1 <;> cases seen.contains item.id <;>
            cases skipIds.contains item.id <;> simp
        by_cases h2 : excludeSet.contains item.nodeName.toLower = true
        · rw [if_pos h2]; exact ih seen
        · rw [if_neg h2]
          obtain ⟨ihn, ihm⟩ := ih (item.id :: seen)
          constructor
          · rw [List.map_cons, List.nodup_cons]
            refine ⟨fun hmem => ?_, ihn⟩
            obtain ⟨x, hx, hxid⟩ := List.mem_map.mp hmem
            have hx1 := (ihm x hx).1
            rw [List.contains_cons, hxid] at hx1
            simp at hx1
          · intro x hx
            rcases List.mem_cons.mp hx with rfl | hx'
            · exact ⟨h1'.1, h1'.2, Bool.eq_false_iff.mpr h2⟩
            · have hm := ihm x hx'
              have hs : seen.contains x.id = false := by
                have := hm.1
                rw [List.contains_cons] at this
                revert this
                cases seen.contains x.id <;> simp
              exact ⟨hs, hm.2⟩

theorem mem_scoredPool (now : ℤ) (skipIds excludeNodes : List String)
    (items : List NewsItem) (x : ScoredItemR)
    (hx : x ∈ scoredPool now skipIds excludeNodes items) :
    0 < x.score ∧ skipIds.contains x.item.id = false ∧
    (excludeNodes.map String.toLower).contains x.item.nodeName.toLower = false := by
  unfold scoredPool at hx
  obtain ⟨hmem, hpos⟩ := List.mem_filter.mp hx
  obtain ⟨item, hitem, rfl⟩ := List.mem_map.mp hmem
  have h := (dedupFilter_spec skipIds (excludeNodes.map String.toLower) items []).2
    item hitem
  exact ⟨by simpa using hpos, h.2.1, h.2.2⟩

theorem scoredPool_ids_nodup (now : ℤ) (skipIds excludeNodes : List String)
    (items : List NewsItem) :
    ((scoredPool now skipIds excludeNodes items).map (fun x => x.item.id)).Nodup := by
  unfold scoredPool
  apply List.Nodup.sublist (List.Sublist.map _ (List.filter_sublist _))
  rw [List.map_map]
  exact (dedupFilter_spec skipIds (excludeNodes.map String.toLower) items []).1

/-- C4: for every input, `scoreAndRank` returns no duplicate identifiers,
no non-positive score, no skipped id and no excluded node
(case-insensitively); is sorted non-increasing by score with ties
preserving the relative order of the deduplicated scored pool (stability
stated as: restricted to any one score value, the output is a sublist of
the pool); and has length exactly `min topN (qualifying count)`.  (The
embedding is pure, so the input list and its items are not mutated by
construction.) -/
theorem C4_rank_contract (now : ℤ) (items : List NewsItem) (topN : ℕ)
    (skipIds excludeNodes : List String) :
    ((scoreAndRank now items topN skipIds excludeNodes).map
      (fun x => x.item.id)).Nodup ∧
    (∀ x ∈ scoreAndRank now items topN skipIds excludeNodes, 0 < x.score) ∧
    (∀ x ∈ scoreAndRank now items topN skipIds excludeNodes,
      x.item.id ∉ skipIds ∧ x.item.nodeName.toLower ∉ excludeNodes.map String.toLower) ∧
    (scoreAndRank now items topN skipIds excludeNodes).Pairwise
      (fun a b => b.score ≤ a.score) ∧
    (∀ q : ℝ, ((scoreAndRank now items topN skipIds excludeNodes).filter
        (fun x => decide (x.score = q))).Sublist
      ((scoredPool now skipIds excludeNodes items).filter
        (fun x => decide (x.score = q)))) ∧
    (scoreAndRank now items topN skipIds excludeNodes).length =
      min topN (scoredPool now skipIds excludeNodes items).length := by
  have htrans : ∀ a b c : ScoredItemR, decide (b.score ≤ a.score) = true →
      decide (c.score ≤ b.score) = true → decide (c.score ≤ a.score) = true := by
    intro a b c h1 h2
    rw [decide_eq_true_eq] at *
    linarith
  have htot : ∀ a b : ScoredItemR,
      (decide (b.score ≤ a.score) || decide (a.score ≤ b.score)) = true := by
    intro a b
    rcases le_total b.score a.score with h | h <;> simp [h]
  unfold scoreAndRank
  have hperm := List.mergeSort_perm (scoredPool now skipIds excludeNodes items)
    (fun a b => decide (b.score ≤ a.score))
  have hsub := List.take_sublist topN ((scoredPool now skipIds excludeNodes items).mergeSort
    (fun a b => decide (b.score ≤ a.score)))
  refine ⟨?_, ?_, ?_, ?_, ?_, ?_⟩
  · apply List.Nodup.sublist (List.Sublist.map _ hsub)
    exact ((hperm.map (fun x => x.item.id)).nodup_iff).mpr
      (scoredPool_ids_nodup now skipIds excludeNodes items)
  · intro x hx
    have hm : x ∈ scoredPool now skipIds excludeNodes items :=
      hperm.mem_iff.mp (hsub.subset hx)
    exact (mem_scoredPool now skipIds excludeNodes items x hm).1
  · intro x hx
    have hm : x ∈ scoredPool now skipIds excludeNodes items :=
      hperm.mem_iff.mp (hsub.subset hx)
    have h := mem_scoredPool now skipIds excludeNodes items x hm
    exact ⟨by simpa using h.2.1, by simpa using h.2.2⟩
  · apply List.Pairwise.sublist hsub
    apply List.Pairwise.imp _ (List.sorted_mergeSort htrans htot
      (scoredPool now skipIds excludeNodes items))
    intro a b h
    exact decide_eq_true_eq.mp h
  · intro q
    have hpw : ((scoredPool now skipIds excludeNodes items).filter
        (fun x => decide (x.score = q))).Pairwise
        (fun a b => decide (b.score ≤ a.score) = true) := by
      apply List.pairwise_of_forall_mem_list
      intro a ha b hb
      have ha' := decide_eq_true_eq.mp (List.mem_filter.mp ha).2
      have hb' := decide_eq_true_eq.mp (List.mem_filter.mp hb).2
      rw [decide_eq_true_eq, ha', hb']
    have hsl := List.sublist_mergeSort htrans htot hpw
      (List.filter_sublist (scoredPool now skipIds excludeNodes items))
    have h2 : ((scoredPool now skipIds excludeNodes items).filter
        (fun x => decide (x.score = q))).Sublist
        ((((scoredPool now skipIds excludeNodes items).mergeSort
          (fun a b => decide (b.score ≤ a.score))).filter
            (fun x => decide (x.score = q)))) := by
      have h3 := List.Sublist.filter (fun x : ScoredItemR => decide (x.score = q)) hsl
      rwa [List.filter_filter, show (fun a : ScoredItemR =>
        decide (a.score = q) && decide (a.score = q)) =
          (fun a : ScoredItemR => decide (a.score = q)) from
        funext (fun a => Bool.and_self _)] at h3
    have hlen := (hperm.filter (fun x : ScoredItemR => decide (x.score = q))).length_eq
    have heq := List.Sublist.eq_of_length h2 (hlen.symm)
    rw [heq]
    exact List.Sublist.filter _ hsub
  · rw [List.length_take, hperm.length_eq]

/-- Witness for C4 at a concrete input, exercising the duplicate-free,
sortedness and length conjuncts. -/
theorem C4_rank_contract_witness :
    ((scoreAndRank 0 [itemW9a, itemW9a, itemW3a] 5 [] []).map
      (fun x => x.item.id)).Nodup ∧
    (scoreAndRank 0 [itemW9a, itemW9a, itemW3a] 5 [] []).Pairwise
      (fun a b => b.score ≤ a.score) ∧
    (scoreAndRank 0 [itemW9a, itemW9a, itemW3a] 5 [] []).length =
      min 5 (scoredPool 0 [] [] [itemW9a, itemW9a, itemW3a]).length :=
  ⟨(C4_rank_contract 0 [itemW9a, itemW9a, itemW3a] 5 [] []).1,
   (C4_rank_contract 0 [itemW9a, itemW9a, itemW3a] 5 [] []).2.2.2.1,
   (C4_rank_contract 0 [itemW9a, itemW9a, itemW3a] 5 [] []).2.2.2.2.2⟩

/-! ## `MemStore.topItems` truncates before joining (C10) -/

theorem foldl_join (itemsL : List (String × NewsItem)) (l : List (String × ℚ)) :
    ∀ acc : List ScoredItem,
      l.foldl (fun acc e =>
        match mapGet itemsL e.1 with
        | some item => acc ++ [{ item := item, score := e.2 }]
        | none => acc) acc =
      acc ++ l.filterMap (fun e =>
        (mapGet itemsL e.1).map (fun item => { item := item, score := e.2 })) := by
  induction l with
  | nil => intro acc; simp
  | cons hd tl ih =>
      intro acc
      rcases h : mapGet itemsL hd.1 with _ | item
      · simpa [List.foldl_cons, List.filterMap_cons, h] using ih acc
      · simp only [List.foldl_cons, List.filterMap_cons, h]
        rw [ih]
        simp

/-- A second item identifier for the C10 instance (no stored item). -/
def idB : String := "b"

/-- A third item identifier for the C10 instance. -/
def idC : String := "c"

/-- A concrete item carrying identifier `idC`. -/
def itemCc : NewsItem :=
  { id := idC, title := "t3", url := "u", content := "c", nodeName := "tech"
    nodeTitle := "T", author := "x", replies := 2, createdAt := 0 }

/-- A store whose period table ranks ids a (3), b (2), c (1) but stores
item records only for a and c. -/
def storeC10 : MemStore :=
  { items := [(idA, itemC1), (idC, itemCc)]
    periodScores := [(pP, [(idA, 3), (idB, 2), (idC, 1)])]
    published := []
    skipped := [] }

/-- C10: `topItems` truncates the score entries to the top `n` *before*
joining with the item table, dropping entries with no stored item without
promoting lower-ranked ids; concretely, with the table a↦3, b↦2, c↦1 and
items stored only for a and c, `topItems _ _ 2` returns just one element
although two table ids do have stored items. -/
theorem C10_topItems_truncate_before_join :
    (∀ (s : MemStore) (period : String) (n : ℕ),
      topItems s period n =
        ((((mapGet s.periodScores period).getD []).mergeSort
            (fun a b => decide (b.2 ≤ a.2))).take n).filterMap
          (fun e => (mapGet s.items e.1).map
            (fun item => { item := item, score := e.2 }))) ∧
    (topItems storeC10 pP 2).length = 1 ∧
    (((mapGet storeC10.periodScores pP).getD []).filter
      (fun e => (mapGet storeC10.items e.1).isSome)).length = 2 := by
  have huniv : ∀ (s : MemStore) (period : String) (n : ℕ),
      topItems s period n =
        ((((mapGet s.periodScores period).getD []).mergeSort
            (fun a b => decide (b.2 ≤ a.2))).take n).filterMap
          (fun e => (mapGet s.items e.1).map
            (fun item => { item := item, score := e.2 })) := by
    intro s period n
    unfold topItems
    split
    · rename_i heq
      rw [heq]
      simp
    · rename_i scores heq
      rw [heq, foldl_join]
      simp
  refine ⟨huniv, ?_, ?_⟩
  · rw [huniv]
    simp +decide [storeC10, mapGet, pP, idA, idB, idC, itemC1, itemCc,
      List.mergeSort, List.merge, List.filterMap_cons]
  · simp +decide [storeC10, mapGet, pP, idA, idB, idC, itemC1, itemCc,
      List.filter_cons]

/-! ## Snapshot load (`MemStore.load`)

The snapshot file on disk is untrusted; `load` runs inside one `try`
whose `catch` keeps whatever state was already applied.  The runtime
values flowing through the loops are untyped JavaScript values, so this
part of the model works on a JSON-value type and a loosely-typed image of
the four sub-structures. -/

/-- A JavaScript runtime value reachable while loading a snapshot:
the JSON data constructors, `undefined` (missed property reads), and the
`Date` wrapper produced by `new Date(x)` during item loading. -/
inductive JsonVal where
  | jnull
  | jundef
  | jbool (b : Bool)
  | jnum (q : ℚ)
  | jstr (s : String)
  | jarr (xs : List JsonVal)
  | jobj (fields : List (String × JsonVal))
  | jdate (arg : JsonVal)

open JsonVal

/-- JavaScript truthiness (`if (raw.items)`): `null`, `undefined`,
`false`, `0` and the empty string are falsy. -/
def jsTruthy : JsonVal → Bool
  | jnull => false
  | jundef => false
  | jbool b => b
  | jnum q => !decide (q = 0)
  | jstr s => !decide (s = "")
  | jarr _ => true
  | jobj _ => true
  | jdate _ => true

/-- Property read `v.k`: throws (`TypeError`) on `null`/`undefined`,
returns the field of an object (or `undefined` when absent), and
`undefined` on every other value. -/
def jsGetField : JsonVal → String → Except Unit JsonVal
  | jnull, _ => .error ()
  | jundef, _ => .error ()
  | jobj fields, k => .ok ((mapGet fields k).getD jundef)
  | _, _ => .ok jundef

/-- `Object.entries(v)`: throws on `null`/`undefined`; fields of an
object; index/value pairs of an array; index/character pairs of a
string; empty for other primitives. -/
def jsEntries : JsonVal → Except Unit (List (String × JsonVal))
  | jnull => .error ()
  | jundef => .error ()
  | jobj fields => .ok fields
  | jarr xs => .ok (xs.enum.map (fun p => (toString p.1, p.2)))
  | jstr s => .ok ((s.data.map (fun c => jstr (String.mk [c]))).enum.map
      (fun p => (toString p.1, p.2)))
  | _ => .ok []

/-- `for (x of v)`: arrays and strings are iterable, everything else
throws (`TypeError`). -/
def jsIter : JsonVal → Except Unit (List JsonVal)
  | jarr xs => .ok xs
  | jstr s => .ok (s.data.map (fun c => jstr (String.mk [c])))
  | _ => .error ()

/-- The snapshot field names, in the order `persist()` writes them. -/
def itemsKey : String := "items"

/-- Snapshot field name for the period score tables. -/
def periodScoresKey : String := "periodScores"

/-- Snapshot field name for the publish set. -/
def publishedKey : String := "published"

/-- Snapshot field name for the skip map. -/
def skippedKey : String := "skipped"

/-- Field name of an item's creation timestamp. -/
def createdAtKey : String := "createdAt"

/-- `item.createdAt = new Date(item.createdAt)`: succeeds on objects
(replacing the field), is a silent no-op we do not track on other
non-primitive objects (arrays, dates), and throws on `null`, `undefined`
and primitives (strict-mode property assignment). -/
def jsSetCreatedAt : JsonVal → Except Unit JsonVal
  | jobj fields => .ok (jobj (mapSet fields createdAtKey
      (jdate ((mapGet fields createdAtKey).getD jundef))))
  | jarr xs => .ok (jarr xs)
  | jdate a => .ok (jdate a)
  | _ => .error ()

/-- `SameValueZero` for the values `JSON.parse` can produce: primitives
compare by value; composite values parsed from JSON are fresh references
and equal to nothing already in a set. -/
def jsonSameValue : JsonVal → JsonVal → Bool
  | jnull, jnull => true
  | jundef, jundef => true
  | jbool a, jbool b => a = b
  | jnum a, jnum b => a = b
  | jstr a, jstr b => a = b
  | _, _ => false

/-- `Set.prototype.add` under `jsonSameValue`. -/
def pubAdd (l : List JsonVal) (v : JsonVal) : List JsonVal :=
  if l.any (fun w => jsonSameValue w v) then l else l ++ [v]

/-- The loosely-typed runtime image of the four `MemStore`
sub-structures as `load` populates them. -/
structure RawStore where
  items : List (String × JsonVal)
  periodScores : List (String × List (String × JsonVal))
  published : List JsonVal
  skipped : List (String × JsonVal)

/-- The state of a freshly constructed store. -/
def emptyRaw : RawStore :=
  { items := [], periodScores := [], published := [], skipped := [] }

/-- The `raw.items` loop: mutate `createdAt`, store the item; a throw
stops the loop keeping the state applied so far (`false` = threw). -/
def loadItems : List (String × JsonVal) → RawStore → RawStore × Bool
  | [], st => (st, true)
  | (id, v) :: rest, st =>
      match jsSetCreatedAt v with
      | .error _ => (st, false)
      | .ok v' => loadItems rest { st with items := mapSet st.items id v' }

/-- The `raw.periodScores` loop: `new Map(Object.entries(scores))` per
period; `Object.entries` throws on `null`/`undefined` values. -/
def loadPeriods : List (String × JsonVal) → RawStore → RawStore × Bool
  | [], st => (st, true)
  | (period, scores) :: rest, st =>
      match jsEntries scores with
      | .error _ => (st, false)
      | .ok entries =>
          let tbl := entries.foldl (fun m e => mapSet m e.1 e.2) []
          loadPeriods rest { st with periodScores := mapSet st.periodScores period tbl }

/-- The `raw.published` loop (cannot throw per element). -/
def loadPublished (vals : List JsonVal) (st : RawStore) : RawStore :=
  { st with published := vals.foldl pubAdd st.published }

/-- The `raw.skipped` loop (cannot throw per element). -/
def loadSkipped (entries : List (String × JsonVal)) (st : RawStore) : RawStore :=
  { st with skipped := entries.foldl (fun m e => mapSet m e.1 e.2) st.skipped }

/-- The `try` body of `load` applied to a parsed value, with the `catch`
folded in: whenever a step throws, the state accumulated so far is kept
(the catch only logs). -/
def loadJson (raw : JsonVal) : RawStore :=
  match jsGetField raw itemsKey with
  | .error _ => emptyRaw
  | .ok itemsV =>
      let r1 := if jsTruthy itemsV then
          match jsEntries itemsV with
          | .error _ => (emptyRaw, false)
          | .ok entries => loadItems entries emptyRaw
        else (emptyRaw, true)
      if r1.2 = false then r1.1 else
      match jsGetField raw periodScoresKey with
      | .error _ => r1.1
      | .ok psV =>
          let r2 := if jsTruthy psV then
              match jsEntries psV with
              | .error _ => (r1.1, false)
              | .ok entries => loadPeriods entries r1.1
            else (r1.1, true)
          if r2.2 = false then r2.1 else
          match jsGetField raw publishedKey with
          | .error _ => r2.1
          | .ok pubV =>
              let r3 := if jsTruthy pubV then
                  match jsIter pubV with
                  | .error _ => (r2.1, false)
                  | .ok vals => (loadPublished vals r2.1, true)
                else (r2.1, true)
              if r3.2 = false then r3.1 else
              match jsGetField raw skippedKey with
              | .error _ => r3.1
              | .ok skV =>
                  if jsTruthy skV then
                    match jsEntries skV with
                    | .error _ => r3.1
                    | .ok entries => loadSkipped entries r3.1
                  else r3.1

/-- A snapshot file as `load` can encounter it: absent, present but
rejected by `JSON.parse`, or parsed to a value. -/
inductive SnapshotFile where
  | missing
  | unparseable
  | parsed (v : JsonVal)

/-- `MemStore.load`: missing file returns before touching anything; a
`JSON.parse` throw is caught before any mutation; otherwise process the
parsed value. -/
def load : SnapshotFile → RawStore
  | .missing => emptyRaw
  | .unparseable => emptyRaw
  | .parsed v => loadJson v

/-- The shape `persist()` writes: an object with exactly the keys
`items` (object of objects), `periodScores` (object of objects of
numbers), `published` (array of strings), `skipped` (object of numbers),
in that order.  A file whose parsed value is not of this shape is a
malformed snapshot. -/
def snapshotShape : JsonVal → Bool
  | jobj fields =>
      fields.map Prod.fst = [itemsKey, periodScoresKey, publishedKey, skippedKey] &&
      (match fields.map Prod.snd with
       | [itemsV, psV, pubV, skV] =>
          (match itemsV with
           | jobj fs => fs.all (fun e => match e.2 with | jobj _ => true | _ => false)
           | _ => false) &&
          (match psV with
           | jobj fs => fs.all (fun e => match e.2 with
              | jobj gs => gs.all (fun g => match g.2 with | jnum _ => true | _ => false)
              | _ => false)
           | _ => false) &&
          (match pubV with
           | jarr xs => xs.all (fun x => match x with | jstr _ => true | _ => false)
           | _ => false) &&
          (match skV with
           | jobj fs => fs.all (fun e => match e.2 with | jnum _ => true | _ => false)
           | _ => false)
       | _ => false)
  | _ => false

/-- A corrupt parsed snapshot: one well-formed item under `items`, then a
`null` period table that makes `Object.entries` throw. -/
def cexC7 : JsonVal :=
  jobj [(itemsKey, jobj [(idA, jobj [(createdAtKey, jnum 0)])]),
        (periodScoresKey, jobj [(pP, jnull)])]

/-- Counterexample to C7 as stated: a malformed parsed snapshot is not
always loaded as the empty state — the item entry applied before the
mid-load throw is retained. -/
theorem C7_counterexample :
    snapshotShape cexC7 = false ∧
    (load (SnapshotFile.parsed cexC7)).items.length = 1 ∧
    (load (SnapshotFile.parsed cexC7)).items.map Prod.fst = [idA] := by
  decide

/-- C7 (amended): `load` on a missing snapshot file is a no-op leaving
the store empty, and `load` never raises (the model's `load` is a total
function: every throw inside the body is caught); content that fails
`JSON.parse` leaves the store empty, but content that parses yet
deviates from the snapshot shape can leave a partially populated,
non-empty store — the entries applied before the first failure are
kept. -/
theorem C7_load_resilience_amended :
    load SnapshotFile.missing = emptyRaw ∧
    load SnapshotFile.unparseable = emptyRaw ∧
    ((load (SnapshotFile.parsed cexC7)).items.length = 1 ∧
      (load (SnapshotFile.parsed cexC7)).periodScores.length = 0 ∧
      (load (SnapshotFile.parsed cexC7)).published.length = 0 ∧
      (load (SnapshotFile.parsed cexC7)).skipped.length = 0) := by
  exact ⟨rfl, rfl, by decide, by decide, by decide, by decide⟩

end V2exDigest
